import Mathlib

/-!
# FactGate — custom RAG adapter and backend: a shallow embedding

This file embeds, in Lean 4, the executable parts of the FactGate repository
that its specification talks about:

* `src/examples/custom-rag-adapter.js` — the `CustomRAGAdapter` class
  (configuration resolution, `verify`, `searchWithRetry`, `isRetryableError`,
  `analyzeResults`, `buildReasoning`, `getCacheKey`, `cacheResult`,
  `isAvailable`);
* `src/examples/custom-rag-server.js` — the backend's `formatSearchResults`
  (similarity = 1/(1+distance)) and the `/api/health` response shape.

Modelling conventions:

* JavaScript numbers are modelled as `ℚ` where they carry similarity scores,
  thresholds or distances, and as `ℕ` where they are counts, sizes or
  millisecond delays.  IEEE-754 rounding and `NaN` are outside the model.
* Possibly-`undefined`/`null` JavaScript values are `Option`s; the JS
  truthiness idiom `a || b` is modelled by the `jsOr*` helpers below
  (`undefined`, `null`, `0` and `""` are falsy).
* Asynchronous I/O is modelled by passing the backend's behaviour as an
  explicit function from the request payload (query, context, attempt number)
  to an `Except`-wrapped response: `.error` is a rejected promise (network
  error or non-2xx HTTP status, which axios rejects), `.ok` a fulfilled one.
* The adapter's `stats` counters and the `timestamp: new Date()` field read
  the wall clock and are outside the model; the in-memory `Map` cache is the
  adapter state that is modelled, as an insertion-ordered association list
  (exactly the iteration-order semantics of a JS `Map`).
-/

namespace FactGate

/-- JS truthiness for an optional number: `undefined`/`null` and `0` are
falsy, so `v || d` falls through to `d` for them (`a || b || 0` chains by
nesting). -/
def jsOrQ (v : Option ℚ) (d : ℚ) : ℚ :=
  match v with
  | some x => if x = 0 then d else x
  | none => d

/-- JS truthiness for an optional non-negative integer (counts, sizes,
delays): `undefined`/`null` and `0` are falsy. -/
def jsOrNat (v : Option ℕ) (d : ℕ) : ℕ :=
  match v with
  | some n => if n = 0 then d else n
  | none => d

/-- JS truthiness for an optional string: `undefined`/`null` and `""` are
falsy. -/
def jsOrStr (v : Option String) (d : String) : String :=
  match v with
  | some s => if s = "" then d else s
  | none => d

/-- JS `a || b` where both sides are possibly-undefined strings and no final
default is supplied (the result itself may be `undefined`). -/
def jsOrStrOpt (a b : Option String) : Option String :=
  match a with
  | some s => if s = "" then b else some s
  | none => b

/-- JS `a || b` for possibly-undefined numbers with no final default. -/
def jsOrQOpt (a b : Option ℚ) : Option ℚ :=
  match a with
  | some x => if x = 0 then b else some x
  | none => b

/-- The verdict enumeration of a `VerificationResult`
(spec §3: `verdict ∈ {verified, contradicted, uncertain}`). -/
inductive Verdict where
  | verified
  | contradicted
  | uncertain
deriving DecidableEq, Repr

/-- One search match as exchanged between backend and adapter.  The adapter
reads the fields `text`, `fact`, `similarity`, `score`, `source` and
`metadata.source` (the latter flattened here to `metadataSource`); the
backend's `formatSearchResults` additionally sets `id` and `distance`.
Absent fields are `none`. -/
structure Match where
  id : Option String := none
  text : Option String := none
  fact : Option String := none
  similarity : Option ℚ := none
  score : Option ℚ := none
  distance : Option ℚ := none
  source : Option String := none
  metadataSource : Option String := none
deriving DecidableEq, Repr

/-- The body of a `/api/search` response as the adapter consumes it: the
`matches` field may itself be missing (`!searchResult.matches`).  The source
field name `matches` is a Lean keyword, hence the guillemets. -/
structure SearchResponse where
  «matches» : Option (List Match)
deriving DecidableEq, Repr

/-- An axios-style error: `code` (`'ECONNREFUSED'`, `'ETIMEDOUT'`, …),
`status` the HTTP status of `error.response` when a response arrived, and
`message` the error's message text. -/
structure JsError where
  code : Option String := none
  status : Option ℕ := none
  message : String := ""
deriving DecidableEq, Repr

/-- The resolved adapter configuration (`this.config` plus `cacheMaxSize`,
custom-rag-adapter.js lines 35–43 and 66). -/
structure Config where
  baseUrl : String
  topK : ℕ
  similarityThreshold : ℚ
  timeout : ℕ
  retryAttempts : ℕ
  retryDelay : ℕ
  cacheMaxSize : ℕ
deriving DecidableEq, Repr

/-- The raw constructor argument: every numeric field may be absent
(`undefined`), in which case — or when it is `0`, which is falsy — the
default applies. -/
structure RawConfig where
  baseUrl : String := ""
  topK : Option ℕ := none
  similarityThreshold : Option ℚ := none
  timeout : Option ℕ := none
  retryAttempts : Option ℕ := none
  retryDelay : Option ℕ := none
  cacheMaxSize : Option ℕ := none
deriving Repr

/-- Source `baseUrl.replace(/\/$/, '')`: strip one trailing slash. -/
def stripTrailingSlash (s : String) : String :=
  if s.data.getLast? = some '/' then ⟨s.data.dropLast⟩ else s

/-- The constructor's configuration resolution
(custom-rag-adapter.js lines 35–43 and 66): each numeric option falls back
to its default under JS truthiness (`config.topK || 5`, …). -/
def resolveConfig (raw : RawConfig) : Config where
  baseUrl := stripTrailingSlash raw.baseUrl
  topK := jsOrNat raw.topK 5
  similarityThreshold := jsOrQ raw.similarityThreshold (8/10)
  timeout := jsOrNat raw.timeout 5000
  retryAttempts := jsOrNat raw.retryAttempts 3
  retryDelay := jsOrNat raw.retryDelay 1000
  cacheMaxSize := jsOrNat raw.cacheMaxSize 100

/-- The `details` payload of a `VerificationResult`, one constructor per
shape the adapter produces: the catch branch, the empty-result branch, and
the analyzed-match branch (custom-rag-adapter.js lines 107–110, 167–170,
197–210). -/
inductive Details where
  | errorD (error : String) (endpoint : String)
  | emptyD (queriedTopK : ℕ) (matchesFound : ℕ)
  | matchD (bestFact : String) (bestSource : Option String) (bestSimilarity : ℚ)
      (allMatches : List (String × Option ℚ × Option String))
      (threshold : ℚ) (backend : String)
deriving DecidableEq, Repr

/-- A `VerificationResult` (spec §3).  The `timestamp: new Date()` field
reads the wall clock and is outside the model. -/
structure VerificationResult where
  sourceId : String
  verdict : Verdict
  confidence : ℚ
  reasoning : String
  details : Details
deriving DecidableEq, Repr

/-- The predicate `isRetryableError` (custom-rag-adapter.js lines 146–154): connection
refused, connection timed out, or an HTTP response with status ≥ 500. -/
def isRetryableError (e : JsError) : Bool :=
  if e.code = some "ECONNREFUSED" ∨ e.code = some "ETIMEDOUT" then true
  else
    match e.status with
    | some s => 500 ≤ s
    | none => false

/-- JS `String.prototype.trim` whitespace, restricted to the ASCII
whitespace characters (space, tab, line feed, carriage return, vertical
tab, form feed); the further Unicode space characters JS also trims are
outside the model. -/
def isJsWs (c : Char) : Bool :=
  c == ' ' || c == '\t' || c == '\n' || c == '\r' || c == '\x0b' || c == '\x0c'

/-- JS `s.trim()`: drop leading and trailing whitespace. -/
def jsTrim (s : String) : String :=
  ⟨List.rdropWhile isJsWs (List.dropWhile isJsWs s.data)⟩

/-- JS `s.toLowerCase()`, character-wise (ASCII case mapping via
`Char.toLower`; locale-independent Unicode case mapping beyond ASCII is
outside the model). -/
def jsToLower (s : String) : String :=
  ⟨s.data.map Char.toLower⟩

/-- The method `getCacheKey` (custom-rag-adapter.js lines 234–236):
`claim.toLowerCase().trim()`.  The key is computed from the claim string
alone — neither the `context` argument of `verify` nor any adapter-selection
information enters the computation. -/
def getCacheKey (claim : String) : String :=
  jsTrim (jsToLower claim)

/-- The cache key as a function of the claim and an adapter-selection
signature.  The source computes the key from the claim alone
(custom-rag-adapter.js lines 234–236), so the selection argument — the
datum the spec says should be part of the key — does not occur in the
body: this definition records exactly what the code does with a selection,
namely nothing. -/
def cacheKeyWithSelection (claim : String) (_selection : List String) : String :=
  getCacheKey claim

/-- The adapter's in-memory cache: a JS `Map` from cache keys to results,
modelled as an insertion-ordered association list with pairwise-distinct
keys (the iteration-order semantics of `Map.keys()`). -/
abbrev Cache := List (String × VerificationResult)

/-- JS `Map.get`/`has`: find the entry with the given key. -/
def cacheGet (k : String) : Cache → Option VerificationResult
  | [] => none
  | (k', v) :: t => if k' = k then some v else cacheGet k t

/-- JS `Map.set`: overwrite in place if the key is present (a JS `Map` keeps
the original insertion position), otherwise append at the end. -/
def cacheSet (k : String) (v : VerificationResult) : Cache → Cache
  | [] => [(k, v)]
  | (k', v') :: t => if k' = k then (k', v) :: t else (k', v') :: cacheSet k v t

/-- JS `Map.delete`: remove the entry with the given key (at most one under the
distinct-keys invariant). -/
def cacheDelete (k : String) : Cache → Cache
  | [] => []
  | (k', v') :: t => if k' = k then t else (k', v') :: cacheDelete k t

/-- The keys of the cache, in iteration (insertion) order. -/
def cacheKeys (c : Cache) : List String := c.map Prod.fst

/-- The method `cacheResult` (custom-rag-adapter.js lines 238–245): if the cache is at
capacity, delete `this.cache.keys().next().value` — the *first* key in
insertion order (for an empty map that value is `undefined` and the delete
is a no-op) — then `set` the new entry. -/
def cacheResult (cfg : Config) (key : String) (result : VerificationResult)
    (cache : Cache) : Cache :=
  let afterEvict :=
    if cfg.cacheMaxSize ≤ cache.length then
      match cache with
      | [] => cache
      | (k0, _) :: _ => cacheDelete k0 cache
    else cache
  cacheSet key result afterEvict

/-- The expression `(q * 100).toFixed(1)` as used in `buildReasoning`: exact decimal
rendering of a rational to one decimal place, rounding half away from zero.
(JS formats the nearest binary double; on the exact rationals of this model
the two agree except on ties invisible to any claim, since no claim inspects
these digits.) -/
def fmtPct (q : ℚ) : String :=
  let t : ℤ := ⌊q * 100 * 10 + 1/2⌋
  let n := t.natAbs
  let s := toString (n / 10) ++ "." ++ toString (n % 10)
  if t < 0 then "-" ++ s else s

/-- The similarity the adapter extracts from a match:
`bestMatch.similarity || bestMatch.score || 0`
(custom-rag-adapter.js line 177). -/
def matchSimilarity (m : Match) : ℚ :=
  jsOrQ m.similarity (jsOrQ m.score 0)

/-- The method `buildReasoning` (custom-rag-adapter.js lines 218–229). -/
def buildReasoning (cfg : Config) (ms : List Match) (topSimilarity : ℚ) : String :=
  let m0 := ms.headD {}
  let factText := jsOrStr m0.text (jsOrStr m0.fact "a known fact")
  let source := jsOrStr m0.source (jsOrStr m0.metadataSource "knowledge base")
  if cfg.similarityThreshold ≤ topSimilarity then
    "High similarity (" ++ fmtPct topSimilarity ++ "%) with verified fact from "
      ++ source ++ ": \x22" ++ factText ++ "\x22"
  else if cfg.similarityThreshold * (6/10) ≤ topSimilarity then
    "Moderate similarity (" ++ fmtPct topSimilarity ++ "%) with known facts. Found "
      ++ toString ms.length
      ++ " potentially relevant facts, but confidence is below threshold."
  else
    "Low similarity (" ++ fmtPct topSimilarity
      ++ "%) with known facts. Claim may be novel or requires verification from additional sources."

/-- The empty-result branch of `analyzeResults`
(custom-rag-adapter.js lines 161–173). -/
def emptyResult (cfg : Config) : VerificationResult where
  sourceId := "custom-rag"
  verdict := .uncertain
  confidence := 0
  reasoning := "No matching facts found in knowledge base"
  details := .emptyD cfg.topK 0

/-- The method `analyzeResults` (custom-rag-adapter.js lines 159–213).  The guard
`!searchResult || !searchResult.matches || searchResult.matches.length === 0`
is the three nested cases ending in `emptyResult`; the source's verdict
ladder has two textually distinct `uncertain` arms
(`similarity >= threshold * 0.6` and the final `else`), both kept. -/
def analyzeResults (cfg : Config) (searchResult : Option SearchResponse) :
    VerificationResult :=
  match searchResult with
  | none => emptyResult cfg
  | some body =>
    match body.«matches» with
    | none => emptyResult cfg
    | some [] => emptyResult cfg
    | some (bestMatch :: rest) =>
      let ms := bestMatch :: rest
      let similarity := matchSimilarity bestMatch
      let verdict : Verdict :=
        if cfg.similarityThreshold ≤ similarity then .verified
        else if cfg.similarityThreshold * (6/10) ≤ similarity then .uncertain
        else .uncertain
      { sourceId := "custom-rag"
        verdict := verdict
        confidence := similarity
        reasoning := buildReasoning cfg ms similarity
        details := .matchD
          (jsOrStr bestMatch.text (jsOrStr bestMatch.fact "N/A"))
          (jsOrStrOpt bestMatch.source bestMatch.metadataSource)
          similarity
          (ms.map fun m =>
            (jsOrStr m.text (jsOrStr m.fact "N/A"),
             jsOrQOpt m.similarity m.score,
             jsOrStrOpt m.source m.metadataSource))
          cfg.similarityThreshold
          cfg.baseUrl }

/-- The caller's `context` argument, an opaque key-value map. -/
abbrev Ctx := List (String × String)

/-- The backend's behaviour, as the adapter observes it: a function from the
`/api/search` request payload (query, context, attempt number, attempts
counted from 1) to either a fulfilled response body (`.ok`; `none` models a
null/shapeless body) or a rejection (`.error`: network failure or non-2xx
status). -/
abbrev Backend := String → Option Ctx → ℕ → Except JsError (Option SearchResponse)

/-- The outcome of one `searchWithRetry` call: the settled value (the thrown
`Backend search failed: …` message on failure), how many `/api/search`
requests were issued, and the list of sleeps taken between attempts, in
order, in milliseconds. -/
structure RetryTrace where
  result : Except String (Option SearchResponse)
  requests : ℕ
  delays : List ℕ
deriving Repr

/-- The recursion of `searchWithRetry` (custom-rag-adapter.js lines
119–141).  The source always issues the request, then retries under the
guard `attempt < this.config.retryAttempts && isRetryableError(error)`;
here `remaining` carries `retryAttempts - attempt`, so that guard is
exactly `remaining ≠ 0 && isRetryableError e` and the recursion is
structural (the two arms differ only in that guard, as in the source).  On
a non-retryable error, or with no attempts remaining, the function throws
`Backend search failed: ${error.message}`; before retry number
`attempt + 1` it sleeps `retryDelay * attempt` milliseconds. -/
def searchAux (cfg : Config) (backend : Backend) (claim : String)
    (ctx : Option Ctx) : ℕ → ℕ → RetryTrace
  | attempt, 0 =>
    match backend claim ctx attempt with
    | .ok data => ⟨.ok data, 1, []⟩
    | .error e => ⟨.error ("Backend search failed: " ++ e.message), 1, []⟩
  | attempt, r + 1 =>
    match backend claim ctx attempt with
    | .ok data => ⟨.ok data, 1, []⟩
    | .error e =>
      if isRetryableError e then
        let t := searchAux cfg backend claim ctx (attempt + 1) r
        ⟨t.result, t.requests + 1, cfg.retryDelay * attempt :: t.delays⟩
      else ⟨.error ("Backend search failed: " ++ e.message), 1, []⟩

/-- The method `searchWithRetry(claim, context)` with the default `attempt = 1`:
`remaining = retryAttempts - 1` further attempts are allowed after the
first. -/
def searchWithRetry (cfg : Config) (backend : Backend) (claim : String)
    (ctx : Option Ctx) : RetryTrace :=
  searchAux cfg backend claim ctx 1 (cfg.retryAttempts - 1)

/-- The catch branch of `verify` (custom-rag-adapter.js lines 98–113). -/
def errorResult (cfg : Config) (msg : String) : VerificationResult where
  sourceId := "custom-rag"
  verdict := .uncertain
  confidence := 0
  reasoning := "RAG system error: " ++ msg
  details := .errorD msg cfg.baseUrl

/-- The observable outcome of one `verify` call: the returned
`VerificationResult`, the cache afterwards, the number of `/api/search`
requests issued, and whether the call was served from the cache
(`stats.cacheHits` was incremented). -/
structure VerifyOutcome where
  result : VerificationResult
  cache : Cache
  requests : ℕ
  cacheHit : Bool
deriving DecidableEq, Repr

/-- The method `verify(claim, context)` (custom-rag-adapter.js lines 72–114): check the
cache under `getCacheKey(claim)`; on a miss call `searchWithRetry`, analyse,
and cache the result; any error thrown inside the `try` (in this model:
exactly a failed `searchWithRetry`) is caught and converted to an
`uncertain`/confidence-0 result that is *not* cached.  The function is
total: it never throws. -/
def verify (cfg : Config) (cache : Cache) (claim : String) (ctx : Option Ctx)
    (backend : Backend) : VerifyOutcome :=
  let cacheKey := getCacheKey claim
  match cacheGet cacheKey cache with
  | some cached => ⟨cached, cache, 0, true⟩
  | none =>
    let t := searchWithRetry cfg backend claim ctx
    match t.result with
    | .error msg => ⟨errorResult cfg msg, cache, t.requests, false⟩
    | .ok searchResult =>
      let result := analyzeResults cfg searchResult
      ⟨result, cacheResult cfg cacheKey result cache, t.requests, false⟩

/-- One ChromaDB metadata object as `formatSearchResults` reads it: only its
`source` field is consumed. -/
structure ChromaMeta where
  source : Option String := none
deriving DecidableEq, Repr

/-- The ChromaDB query result consumed by the server's
`formatSearchResults` (custom-rag-server.js lines 298–325): arrays of
per-query arrays; only index 0 of the outer arrays is read.  A `none`
metadata entry is a null metadata object (`metadatas[i] || {}`). -/
structure ChromaResults where
  documents : List (List String)
  distances : List (List ℚ)
  metadatas : List (List (Option ChromaMeta))
  ids : List (List String)
deriving Repr

/-- The server method `formatSearchResults` (custom-rag-server.js lines 298–325): for each
document `i` of the first query, similarity = `1 / (1 + distances[i])`
(L2 distance), `source = metadatas[i]?.source || 'unknown'`.  Reads past the
end of the parallel arrays (JS `undefined`, propagating to `NaN`) are
outside the model: `getD` supplies defaults there, and the theorems that
use this function quantify over well-formed (equal-length or
non-negative-distance) inputs. -/
def formatSearchResults (r : ChromaResults) : List Match :=
  match r.documents with
  | [] => []
  | docs0 :: _ =>
    let dists := r.distances.headD []
    let metas := r.metadatas.headD []
    let ids := r.ids.headD []
    (List.range docs0.length).map fun i =>
      let d := dists.getD i 0
      let similarity := 1 / (1 + d)
      let meta := (metas.getD i none)
      { id := some (ids.getD i "")
        text := some (docs0.getD i "")
        similarity := some similarity
        distance := some d
        source := some (jsOrStr (meta.bind ChromaMeta.source) "unknown")
        metadataSource := meta.bind ChromaMeta.source }

/-- The body of a `GET /api/health` response as the adapter consumes it
(`response.data.status`, `response.data.factCount`); fields may be absent on
a foreign backend.  The server's `uptime` and `version` fields are not read
by the adapter and are omitted. -/
structure HealthBody where
  status : Option String := none
  factCount : Option ℕ := none
deriving DecidableEq, Repr

/-- The healthy branch of the server's `/api/health` route
(custom-rag-server.js lines 100–115): status `'healthy'` together with the
current fact count (`getFactCount` itself catches its errors and returns 0,
so the count is always a number). -/
def serverHealth (factCount : ℕ) : HealthBody where
  status := some "healthy"
  factCount := some factCount

/-- The method `isAvailable` (custom-rag-adapter.js lines 254–266): issue
`GET /api/health`; on a fulfilled response return
`response.data.status === 'healthy' && response.data.factCount > 0`
(JS `undefined > 0` is false), on any rejection catch it and return
`false`.  Total: never throws. -/
def isAvailable (health : Except JsError HealthBody) : Bool :=
  match health with
  | .error _ => false
  | .ok body =>
    decide (body.status = some "healthy") &&
      match body.factCount with
      | some n => decide (0 < n)
      | none => false

/-- Modelled from the spec: the Orchestrator component (§4.2) is not
implemented under `src/` — the repository ships design documents and the
two example files only.  §4.2: "Input validation: reject immediately (no
adapter dispatch) with `InvalidClaim` if the claim is empty/null or exceeds
a configured maximum length."  This is the error taxonomy entry the claim
C3 names. -/
inductive OrchError where
  | invalidClaim
deriving DecidableEq, Repr

/-- The observable outcome of the modelled Orchestrator call: the result (or
the pre-dispatch rejection) and how many adapter dispatches occurred. -/
structure OrchOutcome (α : Type) where
  result : Except OrchError α
  dispatches : ℕ
deriving Repr

/-- Modelled from the spec: the Orchestrator's `verify` entry, restricted to
the input-validation step §4.2 specifies ahead of any dispatch.  A `none`
claim is JS `null`/`undefined`; an empty or oversized claim is rejected with
`InvalidClaim` and the adapter (`dispatch`) is not invoked; otherwise the
claim is handed to the adapter. -/
def orchestratorVerify {α : Type} (maxClaimLength : ℕ) (claim : Option String)
    (dispatch : String → α) : OrchOutcome α :=
  match claim with
  | none => ⟨.error .invalidClaim, 0⟩
  | some s =>
    if s.length = 0 ∨ maxClaimLength < s.length then ⟨.error .invalidClaim, 0⟩
    else ⟨.ok (dispatch s), 1⟩

/-! ## Concrete inputs for the closed instances below -/

/-- A constructor argument leaving every option at its default. -/
def wRaw : RawConfig := { baseUrl := "http://localhost:3000" }

/-- A constructor argument bounding the cache at two entries. -/
def wRaw2 : RawConfig := { baseUrl := "http://localhost:3000", cacheMaxSize := some 2 }

/-- The resolved two-entry-cache configuration. -/
def wCfg2 : Config := resolveConfig wRaw2

/-- A backend that always fulfils with a single match of the given
similarity. -/
def wOkBackend (sim : ℚ) (fact : String) : Backend :=
  fun _ _ _ => .ok (some ⟨some [{ text := some fact, similarity := some sim }]⟩)

/-- A backend that always rejects with a retryable connection error. -/
def wFailBackend : Backend :=
  fun _ _ _ => .error { code := some "ECONNREFUSED", message := "connect ECONNREFUSED" }

/-- A backend that always rejects with a non-retryable HTTP 400 error. -/
def wFail400 : Backend :=
  fun _ _ _ => .error { status := some 400, message := "Request failed with status code 400" }

/-- A concrete ChromaDB result with one document at L2 distance 1/4. -/
def wChroma : ChromaResults where
  documents := [["Water boils at 100 degrees Celsius at sea level."]]
  distances := [[1/4]]
  metadatas := [[some { source := some "physics" }]]
  ids := [["fact-1"]]

/-- A backend that always fulfils with the server-formatted matches of
`wChroma`. -/
def wChromaBackend : Backend :=
  fun _ _ _ => .ok (some ⟨some (formatSearchResults wChroma)⟩)

/-- A placeholder cached value for concrete cache states. -/
def wVR : VerificationResult := emptyResult wCfg2

/-- Four-call trace through `verify` under a capacity-2 cache: fill with
"a" then "b", *read* "a" (a cache hit — "a" becomes the most recently used
entry), then insert "c", which forces an eviction. -/
def lruStep1 : VerifyOutcome := verify wCfg2 [] "a" none (wOkBackend (9/10) "fa")

/-- Second call of the trace: insert "b". -/
def lruStep2 : VerifyOutcome :=
  verify wCfg2 lruStep1.cache "b" none (wOkBackend (7/10) "fb")

/-- Third call of the trace: read "a" (cache hit). -/
def lruStep3 : VerifyOutcome :=
  verify wCfg2 lruStep2.cache "a" none (wOkBackend (1/2) "fa")

/-- Fourth call of the trace: insert "c" at capacity, forcing an eviction. -/
def lruStep4 : VerifyOutcome :=
  verify wCfg2 lruStep3.cache "c" none (wOkBackend (85/100) "fc")

/-! ## Helper lemmas about the cache operations -/

theorem cacheGet_mem {k : String} {v : VerificationResult} :
    ∀ {c : Cache}, cacheGet k c = some v → (k, v) ∈ c := by
  intro c
  induction c with
  | nil => intro h; simp [cacheGet] at h
  | cons kv t ih =>
    intro h
    obtain ⟨k', v'⟩ := kv
    by_cases hk : k' = k
    · subst hk
      simp only [cacheGet, if_true, eq_self_iff_true, Option.some.injEq] at h
      rw [← h]
      exact List.mem_cons_self _ _
    · simp only [cacheGet, if_neg hk] at h
      exact List.mem_cons_of_mem _ (ih h)

theorem cacheGet_cacheSet_self (k : String) (v : VerificationResult) :
    ∀ c : Cache, cacheGet k (cacheSet k v c) = some v := by
  intro c
  induction c with
  | nil => simp [cacheSet, cacheGet]
  | cons kv t ih =>
    obtain ⟨k', v'⟩ := kv
    by_cases hk : k' = k
    · subst hk
      simp [cacheSet, cacheGet]
    · simp only [cacheSet, if_neg hk, cacheGet]
      exact ih

theorem length_cacheSet_le (k : String) (v : VerificationResult) :
    ∀ c : Cache, (cacheSet k v c).length ≤ c.length + 1 := by
  intro c
  induction c with
  | nil => simp [cacheSet]
  | cons kv t ih =>
    obtain ⟨k', v'⟩ := kv
    by_cases hk : k' = k
    · simp [cacheSet, if_pos hk]
    · simp only [cacheSet, if_neg hk, List.length_cons]
      omega

theorem cacheGet_cacheResult_self (cfg : Config) (k : String)
    (v : VerificationResult) (c : Cache) :
    cacheGet k (cacheResult cfg k v c) = some v :=
  cacheGet_cacheSet_self k v _

theorem cacheKeys_cons (a : String) (b : VerificationResult) (t : Cache) :
    cacheKeys ((a, b) :: t) = a :: cacheKeys t := rfl

theorem cacheKeys_cacheSet (k : String) (v : VerificationResult) :
    ∀ c : Cache, cacheKeys (cacheSet k v c) =
      if k ∈ cacheKeys c then cacheKeys c else cacheKeys c ++ [k] := by
  intro c
  induction c with
  | nil => simp [cacheSet, cacheKeys]
  | cons kv t ih =>
    obtain ⟨k0, v0⟩ := kv
    by_cases hk : k0 = k
    · subst hk
      simp [cacheSet, cacheKeys_cons]
    · have hne : ¬ k = k0 := fun h => hk h.symm
      simp only [cacheSet, if_neg hk, cacheKeys_cons, ih, List.mem_cons, hne, false_or]
      by_cases hm : k ∈ cacheKeys t <;> simp [hm]

theorem mem_cacheKeys_cacheSet_self (k : String) (v : VerificationResult)
    (c : Cache) : k ∈ cacheKeys (cacheSet k v c) := by
  rw [cacheKeys_cacheSet]
  by_cases hm : k ∈ cacheKeys c <;> simp [hm]

theorem mem_cacheKeys_cacheSet_of_mem {k' : String} (k : String)
    (v : VerificationResult) {c : Cache} (h : k' ∈ cacheKeys c) :
    k' ∈ cacheKeys (cacheSet k v c) := by
  rw [cacheKeys_cacheSet]
  by_cases hm : k ∈ cacheKeys c <;> simp [hm, h]

theorem not_mem_cacheKeys_cacheSet {k' k : String} {v : VerificationResult}
    (hne : k' ≠ k) {c : Cache} (hnot : k' ∉ cacheKeys c) :
    k' ∉ cacheKeys (cacheSet k v c) := by
  rw [cacheKeys_cacheSet]
  by_cases hm : k ∈ cacheKeys c <;> simp [hm, hnot, hne]

/-! ## Helper lemmas about `searchAux` -/

theorem searchAux_requests_pos (cfg : Config) (b : Backend) (claim : String)
    (ctx : Option Ctx) (attempt remaining : ℕ) :
    1 ≤ (searchAux cfg b claim ctx attempt remaining).requests := by
  cases remaining with
  | zero =>
    simp only [searchAux]
    cases h : b claim ctx attempt <;> simp
  | succ r =>
    simp only [searchAux]
    cases h : b claim ctx attempt with
    | ok data => simp
    | error e => by_cases hr : isRetryableError e <;> simp [hr]

theorem searchAux_requests_le (cfg : Config) (b : Backend) (claim : String)
    (ctx : Option Ctx) :
    ∀ remaining attempt,
      (searchAux cfg b claim ctx attempt remaining).requests ≤ remaining + 1 := by
  intro remaining
  induction remaining with
  | zero =>
    intro attempt
    simp only [searchAux]
    cases h : b claim ctx attempt <;> simp
  | succ r ih =>
    intro attempt
    simp only [searchAux]
    cases h : b claim ctx attempt with
    | ok data => simp
    | error e =>
      by_cases hr : isRetryableError e
      · simp only [hr, if_true]
        have := ih (attempt + 1)
        omega
      · simp [hr]

theorem searchAux_delays (cfg : Config) (b : Backend) (claim : String)
    (ctx : Option Ctx) :
    ∀ remaining attempt,
      (searchAux cfg b claim ctx attempt remaining).delays =
        (List.range' attempt
            ((searchAux cfg b claim ctx attempt remaining).requests - 1)).map
          (fun n => cfg.retryDelay * n) := by
  intro remaining
  induction remaining with
  | zero =>
    intro attempt
    simp only [searchAux]
    cases h : b claim ctx attempt <;> simp
  | succ r ih =>
    intro attempt
    simp only [searchAux]
    cases h : b claim ctx attempt with
    | ok data => simp
    | error e =>
      by_cases hr : isRetryableError e
      · simp only [hr, if_true]
        have hpos := searchAux_requests_pos cfg b claim ctx (attempt + 1) r
        have hd := ih (attempt + 1)
        rw [hd]
        have hq : (searchAux cfg b claim ctx (attempt + 1) r).requests + 1 - 1 =
            ((searchAux cfg b claim ctx (attempt + 1) r).requests - 1) + 1 := by
          omega
        rw [hq, List.range'_succ, List.map_cons]
      · simp [hr]

theorem searchAux_retried_retryable (cfg : Config) (b : Backend) (claim : String)
    (ctx : Option Ctx) :
    ∀ remaining attempt i, attempt ≤ i →
      i + 1 < attempt + (searchAux cfg b claim ctx attempt remaining).requests →
      ∃ e, b claim ctx i = .error e ∧ isRetryableError e = true := by
  intro remaining
  induction remaining with
  | zero =>
    intro attempt i hle hlt
    exfalso
    simp only [searchAux] at hlt
    cases h : b claim ctx attempt <;> rw [h] at hlt <;> simp at hlt <;> omega
  | succ r ih =>
    intro attempt i hle hlt
    simp only [searchAux] at hlt
    cases h : b claim ctx attempt with
    | ok data =>
      rw [h] at hlt
      simp at hlt
      omega
    | error e =>
      rw [h] at hlt
      by_cases hr : isRetryableError e
      · simp only [hr, if_true] at hlt
        rcases Nat.eq_or_lt_of_le hle with heq | hgt
        · exact ⟨e, heq ▸ h, hr⟩
        · exact ih (attempt + 1) i hgt (by omega)
      · simp [hr] at hlt
        omega

/-! ## Helper lemmas unfolding `verify` -/

theorem verify_of_hit {cfg : Config} {cache : Cache} {claim : String}
    {ctx : Option Ctx} {b : Backend} {r : VerificationResult}
    (h : cacheGet (getCacheKey claim) cache = some r) :
    verify cfg cache claim ctx b = ⟨r, cache, 0, true⟩ := by
  simp only [verify, h]

theorem verify_of_error {cfg : Config} {cache : Cache} {claim : String}
    {ctx : Option Ctx} {b : Backend} {msg : String}
    (hmiss : cacheGet (getCacheKey claim) cache = none)
    (herr : (searchWithRetry cfg b claim ctx).result = .error msg) :
    verify cfg cache claim ctx b =
      ⟨errorResult cfg msg, cache, (searchWithRetry cfg b claim ctx).requests,
        false⟩ := by
  simp only [verify, hmiss, herr]

theorem verify_of_ok {cfg : Config} {cache : Cache} {claim : String}
    {ctx : Option Ctx} {b : Backend} {sr : Option SearchResponse}
    (hmiss : cacheGet (getCacheKey claim) cache = none)
    (hok : (searchWithRetry cfg b claim ctx).result = .ok sr) :
    verify cfg cache claim ctx b =
      ⟨analyzeResults cfg sr,
        cacheResult cfg (getCacheKey claim) (analyzeResults cfg sr) cache,
        (searchWithRetry cfg b claim ctx).requests, false⟩ := by
  simp only [verify, hmiss, hok]

/-! ## Helper lemmas about similarities -/

theorem one_div_one_add_pos {d : ℚ} (hd : 0 ≤ d) : 0 < 1 / (1 + d) := by
  have h1 : (0 : ℚ) < 1 + d := by linarith
  positivity

theorem one_div_one_add_le_one {d : ℚ} (hd : 0 ≤ d) : 1 / (1 + d) ≤ 1 := by
  have h1 : (0 : ℚ) < 1 + d := by linarith
  rw [div_le_one h1]
  linarith

theorem formatSearchResults_similarity {r : ChromaResults} {m : Match}
    (hd : ∀ d ∈ r.distances.headD [], 0 ≤ d) (hm : m ∈ formatSearchResults r) :
    ∃ d, 0 ≤ d ∧ m.similarity = some (1 / (1 + d)) := by
  unfold formatSearchResults at hm
  cases hdoc : r.documents with
  | nil => rw [hdoc] at hm; simp at hm
  | cons docs0 rest =>
    rw [hdoc] at hm
    simp only [List.mem_map, List.mem_range] at hm
    obtain ⟨i, hi, he⟩ := hm
    refine ⟨(r.distances.headD []).getD i 0, ?_, ?_⟩
    · by_cases hlen : i < (r.distances.headD []).length
      · refine hd _ ?_
        rw [List.getD_eq_getElem?_getD, List.getElem?_eq_getElem hlen]
        exact List.getElem_mem hlen
      · rw [List.getD_eq_getElem?_getD, List.getElem?_eq_none (by omega)]
        norm_num
    · rw [← he]

/-! ## Helper lemmas about configuration resolution -/

theorem jsOrNat_pos (v : Option ℕ) {d : ℕ} (hd : 0 < d) : 0 < jsOrNat v d := by
  cases v with
  | none => exact hd
  | some n =>
    by_cases hn : n = 0
    · simp [jsOrNat, hn, hd]
    · simp [jsOrNat, hn]
      omega

theorem resolveConfig_retryAttempts_pos (raw : RawConfig) :
    0 < (resolveConfig raw).retryAttempts :=
  jsOrNat_pos raw.retryAttempts (by norm_num)

theorem resolveConfig_cacheMaxSize_pos (raw : RawConfig) :
    0 < (resolveConfig raw).cacheMaxSize :=
  jsOrNat_pos raw.cacheMaxSize (by norm_num)

/-! ## Helper lemmas about whitespace and case folding -/

theorem toLower_of_isJsWs {c : Char} (h : isJsWs c = true) : c.toLower = c := by
  simp only [isJsWs, Bool.or_eq_true, beq_iff_eq] at h
  obtain ((((h | h) | h) | h) | h) | h := h <;> subst h <;> decide

theorem dropWhile_append_of_forall {p : Char → Bool} {l1 : List Char}
    (h : ∀ c ∈ l1, p c = true) (l2 : List Char) :
    List.dropWhile p (l1 ++ l2) = List.dropWhile p l2 := by
  have h0 : List.dropWhile p l1 = [] := List.dropWhile_eq_nil_iff.mpr h
  rw [List.dropWhile_append, h0]
  simp

theorem rdropWhile_append_of_forall {p : Char → Bool} {l2 : List Char}
    (h : ∀ c ∈ l2, p c = true) (l1 : List Char) :
    List.rdropWhile p (l1 ++ l2) = List.rdropWhile p l1 := by
  show (List.dropWhile p (l1 ++ l2).reverse).reverse = _
  rw [List.reverse_append,
    dropWhile_append_of_forall (fun c hc => h c (List.mem_reverse.mp hc))]
  rfl

/-! ## Further helper lemmas for the claims -/

theorem searchAux_ok_from_backend (cfg : Config) (b : Backend) (claim : String)
    (ctx : Option Ctx) :
    ∀ remaining attempt sr,
      (searchAux cfg b claim ctx attempt remaining).result = Except.ok sr →
      ∃ i, b claim ctx i = Except.ok sr := by
  intro remaining
  induction remaining with
  | zero =>
    intro attempt sr h
    simp only [searchAux] at h
    cases hb : b claim ctx attempt with
    | ok d =>
      rw [hb] at h
      simp at h
      exact ⟨attempt, by rw [hb, h]⟩
    | error e => rw [hb] at h; simp at h
  | succ r ih =>
    intro attempt sr h
    simp only [searchAux] at h
    cases hb : b claim ctx attempt with
    | ok d =>
      rw [hb] at h
      simp at h
      exact ⟨attempt, by rw [hb, h]⟩
    | error e =>
      rw [hb] at h
      by_cases hr : isRetryableError e
      · simp only [hr, if_true] at h
        exact ih (attempt + 1) sr h
      · simp [hr] at h

theorem analyzeResults_formatted_conf_bounds (cfg : Config) (cr : ChromaResults)
    (hd : ∀ d ∈ cr.distances.headD [], 0 ≤ d) :
    0 ≤ (analyzeResults cfg (some ⟨some (formatSearchResults cr)⟩)).confidence ∧
    (analyzeResults cfg (some ⟨some (formatSearchResults cr)⟩)).confidence ≤ 1 := by
  cases hfm : formatSearchResults cr with
  | nil => simp [analyzeResults, emptyResult]
  | cons best rest =>
    have hmem : best ∈ formatSearchResults cr := by
      rw [hfm]; exact List.mem_cons_self _ _
    obtain ⟨d, hd0, hsim⟩ := formatSearchResults_similarity hd hmem
    have hpos := one_div_one_add_pos hd0
    have hle := one_div_one_add_le_one hd0
    have hms : matchSimilarity best = 1 / (1 + d) := by
      simp only [matchSimilarity, hsim, jsOrQ]
      rw [if_neg (ne_of_gt hpos)]
    simp only [analyzeResults]
    constructor <;> rw [hms]
    · exact le_of_lt hpos
    · exact hle

/-! ## The claims -/

/-- C3: for an empty or null claim, verification is rejected immediately
with `InvalidClaim` and no adapter/backend dispatch occurs — the adapter's
`verify` is never invoked, so no search request is sent.  Settled against
the spec-modelled `orchestratorVerify` (the Orchestrator is not implemented
under `src/`), with the adapter's `verify` as the dispatched unit. -/
theorem orchestrator_rejects_invalid_claim (maxLen : ℕ) (claim : Option String)
    (raw : RawConfig) (cache : Cache) (ctx : Option Ctx) (b : Backend)
    (h : claim = none ∨ claim = some "") :
    (orchestratorVerify maxLen claim
        (fun s => verify (resolveConfig raw) cache s ctx b)).result =
      Except.error OrchError.invalidClaim ∧
    (orchestratorVerify maxLen claim
        (fun s => verify (resolveConfig raw) cache s ctx b)).dispatches = 0 := by
  rcases h with h | h <;> subst h
  · exact ⟨rfl, rfl⟩
  · simp only [orchestratorVerify]
    rw [if_pos (show "".length = 0 ∨ maxLen < "".length from Or.inl (by decide))]
    exact ⟨rfl, rfl⟩

/-- Closed instance of `orchestrator_rejects_invalid_claim` at the empty
claim. -/
theorem orchestrator_rejects_invalid_claim_witness :
    (orchestratorVerify 1000 (some "")
        (fun s => verify (resolveConfig wRaw) [] s none wFailBackend)).result =
      Except.error OrchError.invalidClaim ∧
    (orchestratorVerify 1000 (some "")
        (fun s => verify (resolveConfig wRaw) [] s none wFailBackend)).dispatches = 0 :=
  orchestrator_rejects_invalid_claim 1000 (some "") wRaw [] none wFailBackend
    (Or.inr rfl)

/-- C4: on a non-empty search result, `analyzeResults` returns verdict
`verified` exactly when the best-match similarity reaches
`config.similarityThreshold`, returns `uncertain` otherwise, and never
returns `contradicted`. -/
theorem analyzeResults_verdict_characterization (cfg : Config) (best : Match)
    (rest : List Match) :
    ((analyzeResults cfg (some ⟨some (best :: rest)⟩)).verdict = Verdict.verified ↔
      cfg.similarityThreshold ≤ matchSimilarity best) ∧
    ((analyzeResults cfg (some ⟨some (best :: rest)⟩)).verdict ≠ Verdict.verified →
      (analyzeResults cfg (some ⟨some (best :: rest)⟩)).verdict = Verdict.uncertain) ∧
    (analyzeResults cfg (some ⟨some (best :: rest)⟩)).verdict ≠ Verdict.contradicted := by
  by_cases h1 : cfg.similarityThreshold ≤ matchSimilarity best
  · simp [analyzeResults, h1]
  · by_cases h2 : cfg.similarityThreshold * (6/10) ≤ matchSimilarity best <;>
      simp [analyzeResults, h1, h2]

/-- Closed instance of `analyzeResults_verdict_characterization`: a
similarity of 9/10 meets the default threshold 8/10 and yields `verified`;
a similarity of 1/2 does not yield `contradicted`. -/
theorem analyzeResults_verdict_characterization_witness :
    (analyzeResults wCfg2
        (some ⟨some [{ text := some "f", similarity := some (9/10) }]⟩)).verdict =
      Verdict.verified ∧
    (analyzeResults wCfg2
        (some ⟨some [{ text := some "f", similarity := some (1/2) }]⟩)).verdict ≠
      Verdict.contradicted :=
  ⟨(analyzeResults_verdict_characterization wCfg2
      { text := some "f", similarity := some (9/10) } []).1.mpr
      (by with_unfolding_all decide),
   (analyzeResults_verdict_characterization wCfg2
      { text := some "f", similarity := some (1/2) } []).2.2⟩

/-- C7 (amended): the cache key is computed from the normalized claim text
alone (case-folded, then trimmed): claims differing only in letter case or
in leading/trailing whitespace map to the same key, and the
adapter-selection signature is not part of the key, so different selections
also map to the same key. -/
theorem getCacheKey_normalization (s t w1 w2 : String) (sel1 sel2 : List String)
    (hw1 : ∀ c ∈ w1.data, isJsWs c = true) (hw2 : ∀ c ∈ w2.data, isJsWs c = true)
    (hcase : jsToLower s = jsToLower t) :
    getCacheKey (w1 ++ s ++ w2) = getCacheKey s ∧
    getCacheKey s = getCacheKey t ∧
    cacheKeyWithSelection s sel1 = cacheKeyWithSelection s sel2 := by
  refine ⟨?_, ?_, rfl⟩
  · have hdata : (w1 ++ s ++ w2).data = w1.data ++ (s.data ++ w2.data) := by
      rw [String.data_append, String.data_append, List.append_assoc]
    have hW1 : ∀ c ∈ w1.data.map Char.toLower, isJsWs c = true := by
      intro c hc
      obtain ⟨c0, hc0, rfl⟩ := List.mem_map.mp hc
      rw [toLower_of_isJsWs (hw1 c0 hc0)]
      exact hw1 c0 hc0
    have hW2 : ∀ c ∈ w2.data.map Char.toLower, isJsWs c = true := by
      intro c hc
      obtain ⟨c0, hc0, rfl⟩ := List.mem_map.mp hc
      rw [toLower_of_isJsWs (hw2 c0 hc0)]
      exact hw2 c0 hc0
    show String.mk (List.rdropWhile isJsWs (List.dropWhile isJsWs
        ((w1 ++ s ++ w2).data.map Char.toLower))) =
      String.mk (List.rdropWhile isJsWs (List.dropWhile isJsWs
        (s.data.map Char.toLower)))
    rw [hdata, List.map_append, List.map_append,
      dropWhile_append_of_forall hW1]
    cases hS : List.dropWhile isJsWs (s.data.map Char.toLower) with
    | nil =>
      rw [List.dropWhile_append, hS]
      simp only [List.isEmpty_nil, if_true]
      rw [List.dropWhile_eq_nil_iff.mpr hW2]
    | cons x xs =>
      rw [List.dropWhile_append, hS]
      simp only [List.isEmpty_cons, Bool.false_eq_true, if_false]
      rw [rdropWhile_append_of_forall hW2]
  · show jsTrim (jsToLower s) = jsTrim (jsToLower t)
    rw [hcase]

/-- Closed instance of `getCacheKey_normalization`: white space and case
variants of one claim share a key, and the selection does not matter. -/
theorem getCacheKey_normalization_witness :
    getCacheKey ("  " ++ "The Earth is ROUND" ++ " ") =
      getCacheKey "The Earth is ROUND" ∧
    getCacheKey "The Earth is ROUND" = getCacheKey "the earth is round" ∧
    cacheKeyWithSelection "The Earth is ROUND" ["x"] =
      cacheKeyWithSelection "The Earth is ROUND" ["y"] :=
  getCacheKey_normalization "The Earth is ROUND" "the earth is round" "  " " "
    ["x"] ["y"] (by decide) (by decide) (by decide)

/-- C7 counterexample: the claim says different adapter selections map to
different cache keys; in the source the key is `claim.toLowerCase().trim()`
with no selection component, so two distinct selections share the key. -/
theorem cacheKey_independent_of_selection :
    cacheKeyWithSelection "claim" ["adapter-a"] =
      cacheKeyWithSelection "claim" ["adapter-b"] ∧
    ("adapter-a" :: []) ≠ ("adapter-b" :: ([] : List String)) :=
  ⟨rfl, by decide⟩

/-- C8: `searchWithRetry` terminates (it is a total function) and issues at
least one and at most `config.retryAttempts` backend requests; the sleep
before retry attempt `n + 1` is `retryDelay * n` milliseconds (the delays
list is exactly `[retryDelay*1, …, retryDelay*(requests-1)]`); and attempt
`i` is followed by another attempt only when it failed with an error
satisfying the retryable-error predicate. -/
theorem searchWithRetry_retry_policy (raw : RawConfig) (b : Backend)
    (claim : String) (ctx : Option Ctx) :
    1 ≤ (searchWithRetry (resolveConfig raw) b claim ctx).requests ∧
    (searchWithRetry (resolveConfig raw) b claim ctx).requests ≤
      (resolveConfig raw).retryAttempts ∧
    (searchWithRetry (resolveConfig raw) b claim ctx).delays =
      (List.range' 1
          ((searchWithRetry (resolveConfig raw) b claim ctx).requests - 1)).map
        (fun n => (resolveConfig raw).retryDelay * n) ∧
    ∀ i, 1 ≤ i → i < (searchWithRetry (resolveConfig raw) b claim ctx).requests →
      ∃ e, b claim ctx i = Except.error e ∧ isRetryableError e = true := by
  have hle := searchAux_requests_le (resolveConfig raw) b claim ctx
    ((resolveConfig raw).retryAttempts - 1) 1
  have hatt := resolveConfig_retryAttempts_pos raw
  refine ⟨searchAux_requests_pos (resolveConfig raw) b claim ctx 1 _, ?_, ?_, ?_⟩
  · show (searchAux (resolveConfig raw) b claim ctx 1
        ((resolveConfig raw).retryAttempts - 1)).requests ≤ _
    omega
  · exact searchAux_delays (resolveConfig raw) b claim ctx _ 1
  · intro i h1 hi
    have hi' : i < (searchAux (resolveConfig raw) b claim ctx 1
        ((resolveConfig raw).retryAttempts - 1)).requests := hi
    exact searchAux_retried_retryable (resolveConfig raw) b claim ctx
      ((resolveConfig raw).retryAttempts - 1) 1 i h1 (by omega)

/-- Closed instance of `searchWithRetry_retry_policy` on an
always-connection-refused backend: the request count is bounded by the
configured attempts and the first attempt failed retryably. -/
theorem searchWithRetry_retry_policy_witness :
    (searchWithRetry (resolveConfig wRaw) wFailBackend "c" none).requests ≤
      (resolveConfig wRaw).retryAttempts ∧
    ∃ e, wFailBackend "c" none 1 = Except.error e ∧ isRetryableError e = true :=
  ⟨(searchWithRetry_retry_policy wRaw wFailBackend "c" none).2.1,
   (searchWithRetry_retry_policy wRaw wFailBackend "c" none).2.2.2 1
     (by norm_num) (by decide)⟩

/-- C9: `isAvailable` returns `true` exactly when the health request
succeeds with body status `'healthy'` and `factCount > 0`; on any request
failure it returns `false` (and, being a total function, never throws); in
particular a healthy server response reporting zero facts — the server's
own health shape with `factCount = 0` — is reported unavailable. -/
theorem isAvailable_characterization (health : Except JsError HealthBody) :
    (isAvailable health = true ↔
      ∃ body, health = Except.ok body ∧ body.status = some "healthy" ∧
        ∃ n, body.factCount = some n ∧ 0 < n) ∧
    (∀ e, isAvailable (Except.error e) = false) ∧
    isAvailable (Except.ok (serverHealth 0)) = false := by
  refine ⟨?_, fun e => rfl, by decide⟩
  cases health with
  | error e => simp [isAvailable]
  | ok body =>
    obtain ⟨st, fc⟩ := body
    cases fc with
    | none => simp [isAvailable]
    | some n =>
      by_cases hn : 0 < n <;> by_cases hs : st = some "healthy" <;>
        simp [isAvailable, hn, hs]

/-- Closed instance of `isAvailable_characterization`: a healthy server
with three facts is available; a healthy server with zero facts is not. -/
theorem isAvailable_characterization_witness :
    isAvailable (Except.ok (serverHealth 3)) = true ∧
    isAvailable (Except.ok (serverHealth 0)) = false :=
  ⟨(isAvailable_characterization (Except.ok (serverHealth 3))).1.mpr
      ⟨serverHealth 3, rfl, rfl, 3, rfl, by norm_num⟩,
   (isAvailable_characterization (Except.ok (serverHealth 0))).2.2⟩

/-- C1: for every claim and every backend search response whose matches are
the server's `formatSearchResults` output over non-negative L2 distances
(similarity `1/(1+distance)`), the result of `verify` has confidence in
`[0, 1]` and a verdict among verified/contradicted/uncertain (entries
already in the cache are assumed to satisfy the same confidence bounds). -/
theorem verify_confidence_unit_interval (raw : RawConfig) (cache : Cache)
    (claim : String) (ctx : Option Ctx) (b : Backend) (crOf : ℕ → ChromaResults)
    (hcache : ∀ kv ∈ cache, 0 ≤ kv.2.confidence ∧ kv.2.confidence ≤ 1)
    (hok : ∀ attempt body, b claim ctx attempt = Except.ok body →
      body = some ⟨some (formatSearchResults (crOf attempt))⟩)
    (hdist : ∀ attempt, ∀ d ∈ (crOf attempt).distances.headD [], 0 ≤ d) :
    (0 ≤ (verify (resolveConfig raw) cache claim ctx b).result.confidence ∧
      (verify (resolveConfig raw) cache claim ctx b).result.confidence ≤ 1) ∧
    ((verify (resolveConfig raw) cache claim ctx b).result.verdict =
        Verdict.verified ∨
      (verify (resolveConfig raw) cache claim ctx b).result.verdict =
        Verdict.contradicted ∨
      (verify (resolveConfig raw) cache claim ctx b).result.verdict =
        Verdict.uncertain) := by
  have hverd : ∀ r : VerificationResult,
      r.verdict = Verdict.verified ∨ r.verdict = Verdict.contradicted ∨
        r.verdict = Verdict.uncertain := by
    intro r; cases hv : r.verdict <;> simp
  refine ⟨?_, hverd _⟩
  cases hget : cacheGet (getCacheKey claim) cache with
  | some r =>
    rw [verify_of_hit hget]
    exact hcache _ (cacheGet_mem hget)
  | none =>
    cases hres : (searchWithRetry (resolveConfig raw) b claim ctx).result with
    | error msg =>
      rw [verify_of_error hget hres]
      simp [errorResult]
    | ok sr =>
      rw [verify_of_ok hget hres]
      obtain ⟨i, hi⟩ := searchAux_ok_from_backend (resolveConfig raw) b claim ctx
        ((resolveConfig raw).retryAttempts - 1) 1 sr hres
      have hbody := hok i sr hi
      rw [hbody]
      exact analyzeResults_formatted_conf_bounds (resolveConfig raw) (crOf i)
        (hdist i)

/-- Closed instance of `verify_confidence_unit_interval` on a
server-formatted response at distance 1/4. -/
theorem verify_confidence_unit_interval_witness :
    (0 ≤ (verify (resolveConfig wRaw) [] "w" none wChromaBackend).result.confidence ∧
      (verify (resolveConfig wRaw) [] "w" none wChromaBackend).result.confidence ≤ 1) ∧
    ((verify (resolveConfig wRaw) [] "w" none wChromaBackend).result.verdict =
        Verdict.verified ∨
      (verify (resolveConfig wRaw) [] "w" none wChromaBackend).result.verdict =
        Verdict.contradicted ∨
      (verify (resolveConfig wRaw) [] "w" none wChromaBackend).result.verdict =
        Verdict.uncertain) :=
  verify_confidence_unit_interval wRaw [] "w" none wChromaBackend (fun _ => wChroma)
    (by intro kv h; simp at h)
    (by
      intro attempt body hb
      simp only [wChromaBackend, Except.ok.injEq] at hb
      exact hb.symm)
    (by
      intro attempt
      show ∀ d ∈ wChroma.distances.headD [], 0 ≤ d
      with_unfolding_all decide)

/-- C2: `verify` is a total function (it never throws); whenever the
backend search fails — after retries, with any HTTP or network error — it
returns the catch-branch result: verdict `uncertain`, confidence 0, and a
reasoning string recording the error message; a malformed successful
response (null body, missing or empty `matches`) likewise yields verdict
`uncertain` with confidence 0 (via the no-match branch). -/
theorem verify_failure_shape (raw : RawConfig) (cache : Cache) (claim : String)
    (ctx : Option Ctx) (b : Backend)
    (hmiss : cacheGet (getCacheKey claim) cache = none) :
    (∀ msg,
      (searchWithRetry (resolveConfig raw) b claim ctx).result =
        Except.error msg →
      (verify (resolveConfig raw) cache claim ctx b).result =
        errorResult (resolveConfig raw) msg ∧
      (verify (resolveConfig raw) cache claim ctx b).result.verdict =
        Verdict.uncertain ∧
      (verify (resolveConfig raw) cache claim ctx b).result.confidence = 0 ∧
      (verify (resolveConfig raw) cache claim ctx b).result.reasoning =
        "RAG system error: " ++ msg) ∧
    (∀ body,
      (searchWithRetry (resolveConfig raw) b claim ctx).result = Except.ok body →
      body = none ∨ body = some ⟨none⟩ ∨ body = some ⟨some []⟩ →
      (verify (resolveConfig raw) cache claim ctx b).result.verdict =
        Verdict.uncertain ∧
      (verify (resolveConfig raw) cache claim ctx b).result.confidence = 0) := by
  constructor
  · intro msg h
    rw [verify_of_error hmiss h]
    exact ⟨rfl, rfl, rfl, rfl⟩
  · intro body hok hshape
    rw [verify_of_ok hmiss hok]
    rcases hshape with h | h | h <;> subst h <;> exact ⟨rfl, rfl⟩

/-- Closed instance of `verify_failure_shape` on an always-HTTP-400
backend. -/
theorem verify_failure_shape_witness :
    (verify (resolveConfig wRaw) [] "c" none wFail400).result.verdict =
      Verdict.uncertain ∧
    (verify (resolveConfig wRaw) [] "c" none wFail400).result.confidence = 0 ∧
    (verify (resolveConfig wRaw) [] "c" none wFail400).result.reasoning =
      "RAG system error: " ++
        "Backend search failed: Request failed with status code 400" := by
  have h := (verify_failure_shape wRaw [] "c" none wFail400 rfl).1
    "Backend search failed: Request failed with status code 400" rfl
  exact ⟨h.2.1, h.2.2.1, h.2.2.2⟩

/-- C5: two successive `verify` calls with the same claim (given that the
first one completed — it hit the cache or its backend search succeeded, so
its result was stored; the adapter cache has no TTL, so no expiry can
intervene) return identical results and the second is served from the
cache, issuing zero backend requests and leaving the cache unchanged. -/
theorem verify_cache_idempotent (raw : RawConfig) (cache : Cache) (claim : String)
    (ctx1 ctx2 : Option Ctx) (b1 b2 : Backend)
    (h : cacheGet (getCacheKey claim) cache ≠ none ∨
      ∃ sr, (searchWithRetry (resolveConfig raw) b1 claim ctx1).result =
        Except.ok sr) :
    (verify (resolveConfig raw)
        (verify (resolveConfig raw) cache claim ctx1 b1).cache claim ctx2
        b2).result = (verify (resolveConfig raw) cache claim ctx1 b1).result ∧
    (verify (resolveConfig raw)
        (verify (resolveConfig raw) cache claim ctx1 b1).cache claim ctx2
        b2).requests = 0 ∧
    (verify (resolveConfig raw)
        (verify (resolveConfig raw) cache claim ctx1 b1).cache claim ctx2
        b2).cacheHit = true ∧
    (verify (resolveConfig raw)
        (verify (resolveConfig raw) cache claim ctx1 b1).cache claim ctx2
        b2).cache = (verify (resolveConfig raw) cache claim ctx1 b1).cache := by
  have hdo : ∀ r, cacheGet (getCacheKey claim) cache = some r →
      (verify (resolveConfig raw)
          (verify (resolveConfig raw) cache claim ctx1 b1).cache claim ctx2
          b2).result = (verify (resolveConfig raw) cache claim ctx1 b1).result ∧
      (verify (resolveConfig raw)
          (verify (resolveConfig raw) cache claim ctx1 b1).cache claim ctx2
          b2).requests = 0 ∧
      (verify (resolveConfig raw)
          (verify (resolveConfig raw) cache claim ctx1 b1).cache claim ctx2
          b2).cacheHit = true ∧
      (verify (resolveConfig raw)
          (verify (resolveConfig raw) cache claim ctx1 b1).cache claim ctx2
          b2).cache = (verify (resolveConfig raw) cache claim ctx1 b1).cache := by
    intro r hr
    rw [verify_of_hit hr]
    dsimp only
    rw [verify_of_hit hr]
    exact ⟨rfl, rfl, rfl, rfl⟩
  rcases h with hb | ⟨sr, hok⟩
  · obtain ⟨r, hr⟩ := Option.ne_none_iff_exists'.mp hb
    exact hdo r hr
  · by_cases hmiss : cacheGet (getCacheKey claim) cache = none
    · rw [verify_of_ok hmiss hok]
      dsimp only
      rw [verify_of_hit (cacheGet_cacheResult_self (resolveConfig raw)
        (getCacheKey claim) (analyzeResults (resolveConfig raw) sr) cache)]
      exact ⟨rfl, rfl, rfl, rfl⟩
    · obtain ⟨r, hr⟩ := Option.ne_none_iff_exists'.mp hmiss
      exact hdo r hr

/-- Closed instance of `verify_cache_idempotent`: a successful call
followed by an identical call. -/
theorem verify_cache_idempotent_witness :
    (verify (resolveConfig wRaw)
        (verify (resolveConfig wRaw) [] "a" none (wOkBackend (9/10) "fa")).cache
        "a" none (wOkBackend (9/10) "fa")).result =
      (verify (resolveConfig wRaw) [] "a" none (wOkBackend (9/10) "fa")).result ∧
    (verify (resolveConfig wRaw)
        (verify (resolveConfig wRaw) [] "a" none (wOkBackend (9/10) "fa")).cache
        "a" none (wOkBackend (9/10) "fa")).requests = 0 := by
  have h := verify_cache_idempotent wRaw [] "a" none none (wOkBackend (9/10) "fa")
    (wOkBackend (9/10) "fa")
    (Or.inr ⟨some ⟨some [{ text := some "fa", similarity := some (9/10) }]⟩, rfl⟩)
  exact ⟨h.1, h.2.1⟩

/-- C6 (amended): after every insertion the cache holds at most
`cacheMaxSize` entries; when an insertion happens at capacity the entry
evicted is the *first in insertion order* — the oldest-inserted key (a
read does not refresh an entry's position, so this is FIFO, not
least-recently-used) — while every younger key and the inserted key
remain; the adapter cache stores no expiry, so there is no TTL-based
eviction. -/
theorem cacheResult_bounded_fifo (raw : RawConfig) (key : String)
    (r : VerificationResult) (c : Cache)
    (hlen : c.length ≤ (resolveConfig raw).cacheMaxSize) :
    (cacheResult (resolveConfig raw) key r c).length ≤
      (resolveConfig raw).cacheMaxSize ∧
    (∀ k0 v0 t, c = (k0, v0) :: t →
      (resolveConfig raw).cacheMaxSize ≤ c.length →
      k0 ∉ cacheKeys t → k0 ≠ key →
      k0 ∉ cacheKeys (cacheResult (resolveConfig raw) key r c) ∧
      (∀ k ∈ cacheKeys t,
        k ∈ cacheKeys (cacheResult (resolveConfig raw) key r c)) ∧
      key ∈ cacheKeys (cacheResult (resolveConfig raw) key r c)) := by
  have hmax := resolveConfig_cacheMaxSize_pos raw
  constructor
  · by_cases hfull : (resolveConfig raw).cacheMaxSize ≤ c.length
    · cases c with
      | nil =>
        exfalso
        simp only [List.length_nil] at hfull
        omega
      | cons kv t =>
        obtain ⟨k0, v0⟩ := kv
        simp only [cacheResult, if_pos hfull]
        have hdel : cacheDelete k0 ((k0, v0) :: t) = t := by simp [cacheDelete]
        rw [hdel]
        have := length_cacheSet_le key r t
        simp only [List.length_cons] at hlen
        omega
    · simp only [cacheResult, if_neg hfull]
      have := length_cacheSet_le key r c
      omega
  · intro k0 v0 t hc hfull hnk0 hne
    subst hc
    simp only [cacheResult, if_pos hfull]
    have hdel : cacheDelete k0 ((k0, v0) :: t) = t := by simp [cacheDelete]
    rw [hdel]
    exact ⟨not_mem_cacheKeys_cacheSet hne hnk0,
      fun k hk => mem_cacheKeys_cacheSet_of_mem key r hk,
      mem_cacheKeys_cacheSet_self key r t⟩

/-- Closed instance of `cacheResult_bounded_fifo`: inserting "c" into the
full two-entry cache ["a", "b"] evicts the oldest entry "a" and keeps the
bound. -/
theorem cacheResult_bounded_fifo_witness :
    (cacheResult (resolveConfig wRaw2) "c" wVR [("a", wVR), ("b", wVR)]).length ≤
      (resolveConfig wRaw2).cacheMaxSize ∧
    "a" ∉ cacheKeys (cacheResult (resolveConfig wRaw2) "c" wVR
      [("a", wVR), ("b", wVR)]) ∧
    "b" ∈ cacheKeys (cacheResult (resolveConfig wRaw2) "c" wVR
      [("a", wVR), ("b", wVR)]) ∧
    "c" ∈ cacheKeys (cacheResult (resolveConfig wRaw2) "c" wVR
      [("a", wVR), ("b", wVR)]) := by
  have h := cacheResult_bounded_fifo wRaw2 "c" wVR [("a", wVR), ("b", wVR)]
    (by decide)
  have h2 := h.2 "a" wVR [("b", wVR)] rfl (by decide) (by decide) (by decide)
  exact ⟨h.1, h2.1, h2.2.1 "b" (by decide), h2.2.2⟩

/-- C6 counterexample: the eviction is not least-recently-used.  In the
trace `lruStep1`–`lruStep4` the cache (capacity 2) is filled with "a" then
"b", then "a" is *read* — a cache hit, making "a" the most recently used
and "b" the least recently used — and then "c" is inserted.  An LRU cache
would evict "b"; the code evicts the oldest-inserted "a" and keeps "b". -/
theorem cache_eviction_not_lru :
    lruStep3.cacheHit = true ∧
    cacheKeys lruStep4.cache = ["b", "c"] ∧
    "a" ∉ cacheKeys lruStep4.cache := by
  with_unfolding_all decide

/-- C10: the cache key omits the `context` argument: once a call on claim
`c` has populated the cache, a `verify` call on any claim with the same
normalized text returns the stored result of that first call with zero
backend requests, and its output is the same whatever context (and backend
behaviour) the second call is given. -/
theorem verify_cached_ignores_context (raw : RawConfig) (cache : Cache)
    (c c' : String) (ctx1 ctx2 ctx2' : Option Ctx) (b1 b2 b2' : Backend)
    (hkey : getCacheKey c' = getCacheKey c)
    (h : cacheGet (getCacheKey c) cache ≠ none ∨
      ∃ sr, (searchWithRetry (resolveConfig raw) b1 c ctx1).result =
        Except.ok sr) :
    (verify (resolveConfig raw) (verify (resolveConfig raw) cache c ctx1 b1).cache
        c' ctx2 b2).result = (verify (resolveConfig raw) cache c ctx1 b1).result ∧
    (verify (resolveConfig raw) (verify (resolveConfig raw) cache c ctx1 b1).cache
        c' ctx2 b2).requests = 0 ∧
    (verify (resolveConfig raw) (verify (resolveConfig raw) cache c ctx1 b1).cache
        c' ctx2 b2).result =
      (verify (resolveConfig raw) (verify (resolveConfig raw) cache c ctx1 b1).cache
        c' ctx2' b2').result := by
  have hdo : ∀ r, cacheGet (getCacheKey c) cache = some r →
      (verify (resolveConfig raw)
          (verify (resolveConfig raw) cache c ctx1 b1).cache c' ctx2 b2).result =
        (verify (resolveConfig raw) cache c ctx1 b1).result ∧
      (verify (resolveConfig raw)
          (verify (resolveConfig raw) cache c ctx1 b1).cache c' ctx2 b2).requests =
        0 ∧
      (verify (resolveConfig raw)
          (verify (resolveConfig raw) cache c ctx1 b1).cache c' ctx2 b2).result =
        (verify (resolveConfig raw)
          (verify (resolveConfig raw) cache c ctx1 b1).cache c' ctx2' b2').result := by
    intro r hr
    have hr' : cacheGet (getCacheKey c') cache = some r := by rw [hkey]; exact hr
    rw [verify_of_hit hr]
    dsimp only
    rw [@verify_of_hit _ _ _ ctx2 b2 _ hr', @verify_of_hit _ _ _ ctx2' b2' _ hr']
    exact ⟨rfl, rfl, rfl⟩
  rcases h with hb | ⟨sr, hok⟩
  · obtain ⟨r, hr⟩ := Option.ne_none_iff_exists'.mp hb
    exact hdo r hr
  · by_cases hmiss : cacheGet (getCacheKey c) cache = none
    · have h2 : cacheGet (getCacheKey c')
          (cacheResult (resolveConfig raw) (getCacheKey c)
            (analyzeResults (resolveConfig raw) sr) cache) =
          some (analyzeResults (resolveConfig raw) sr) := by
        rw [hkey]
        exact cacheGet_cacheResult_self (resolveConfig raw) (getCacheKey c)
          (analyzeResults (resolveConfig raw) sr) cache
      rw [verify_of_ok hmiss hok]
      dsimp only
      rw [@verify_of_hit _ _ _ ctx2 b2 _ h2, @verify_of_hit _ _ _ ctx2' b2' _ h2]
      exact ⟨rfl, rfl, rfl⟩
    · obtain ⟨r, hr⟩ := Option.ne_none_iff_exists'.mp hmiss
      exact hdo r hr

/-- Closed instance of `verify_cached_ignores_context`: after a successful
call on " Foo", a call on "foo " with a context returns the stored result
for zero requests, and the same output results under a different context
and a differently-behaving backend. -/
theorem verify_cached_ignores_context_witness :
    (verify (resolveConfig wRaw)
        (verify (resolveConfig wRaw) [] " Foo" none (wOkBackend (9/10) "fa")).cache
        "foo " (some [("k", "v")]) wFailBackend).requests = 0 ∧
    (verify (resolveConfig wRaw)
        (verify (resolveConfig wRaw) [] " Foo" none (wOkBackend (9/10) "fa")).cache
        "foo " (some [("k", "v")]) wFailBackend).result =
      (verify (resolveConfig wRaw)
        (verify (resolveConfig wRaw) [] " Foo" none (wOkBackend (9/10) "fa")).cache
        "foo " (some [("k", "w")]) wFail400).result := by
  have h := verify_cached_ignores_context wRaw [] " Foo" "foo " none
    (some [("k", "v")]) (some [("k", "w")]) (wOkBackend (9/10) "fa") wFailBackend
    wFail400 (by decide)
    (Or.inr ⟨some ⟨some [{ text := some "fa", similarity := some (9/10) }]⟩, rfl⟩)
  exact ⟨h.2.1, h.2.2⟩

end FactGate


